import Mathlib

/-!
Verification development for the ProactivaDev meta-coordination core.

The definitions below are a shallow embedding of the repository's
agent-communication and collective-learning code:

* `Mesh` embeds the `A2ACommunicationMesh` Python class from
  `src/collective/a2a-communication.ts` (message queues, trust scores,
  negotiation loop).
* `TN` embeds the `TrustNetwork` Python class from
  `src/collective/trust-network.ts` (per-edge trust update and decay).
* `Store` embeds the `ExperienceStore` TypeScript class from
  `src/collective/experience-store.ts` (capacity-bounded memory with
  pattern recognition).
* `Evo` embeds the evolution-cycle pieces of the `CollectiveIntelligence`
  class (`triggerEvolution`, `selectBestPatterns`, `mutateStrategies`,
  `crossBreedStrategies`, `deprecateWeakPatterns`).

JavaScript/Python `Map`/`dict` values are embedded as association lists in
insertion order (`KV`), numbers as exact rationals, and wall-clock reads
(`time.time()`, `Date.now()`) as an explicit clock threaded through the
state.  Calls to `Math.random()` are embedded as explicit oracle arguments.
-/

namespace KV

/-- Lookup in an insertion-ordered association list (JS `Map.get`). -/
def get? {κ α : Type} [DecidableEq κ] : List (κ × α) → κ → Option α
  | [], _ => none
  | kv :: tl, k => if kv.1 = k then some kv.2 else get? tl k

/-- Insert or overwrite (JS `Map.set`): an existing key keeps its position,
a new key is appended at the end. -/
def set {κ α : Type} [DecidableEq κ] : List (κ × α) → κ → α → List (κ × α)
  | [], k, v => [(k, v)]
  | kv :: tl, k, v => if kv.1 = k then (k, v) :: tl else kv :: set tl k v

/-- Remove a key (JS `Map.delete`). -/
def erase {κ α : Type} [DecidableEq κ] : List (κ × α) → κ → List (κ × α)
  | [], _ => []
  | kv :: tl, k => if kv.1 = k then erase tl k else kv :: erase tl k

/-- Key-membership test (JS `Map.has`). -/
def hasKey {κ α : Type} [DecidableEq κ] (l : List (κ × α)) (k : κ) : Bool :=
  l.any (fun kv => decide (kv.1 = k))

end KV

/-! ## Trust dynamics

`Mesh.updateScore` is the score arithmetic of `A2ACommunicationMesh.update_trust`
(success: `0.1 * quality_score * (1 - current_trust)`; failure:
`-0.15 * current_trust`; result `max(0, min(1, ...))`).

`TN.updateScore` is the score arithmetic of
`TrustNetwork.update_trust_from_interaction` (learning rate 0.1, failure delta
`-lr * 1.5 * s`, partial delta `lr * 0.5 * q * (1 - s)`, result
`np.clip(..., 0.1, 0.95)`), and `TN.decayScore` is one off-diagonal entry of
`TrustNetwork.apply_trust_decay`. -/

namespace TN

/-- Interaction outcomes accepted by `update_trust_from_interaction`. -/
inductive Outcome3 : Type
  | success
  | failure
  | partialOutcome
deriving DecidableEq

def learning_rate : ℚ := 0.1
def decay_rate : ℚ := 0.01
def min_trust : ℚ := 0.1
def max_trust : ℚ := 0.95

/-- Embeds `np.clip(x, lo, hi)`. -/
def clip (x lo hi : ℚ) : ℚ := max lo (min hi x)

/-- Score update of `TrustNetwork.update_trust_from_interaction` on one
directed edge. -/
def updateScore (current_trust : ℚ) (outcome : Outcome3) (quality : ℚ) : ℚ :=
  let delta :=
    match outcome with
    | .success => learning_rate * quality * (1 - current_trust)
    | .failure => -(learning_rate * 1.5 * current_trust)
    | .partialOutcome => learning_rate * 0.5 * quality * (1 - current_trust)
  clip (current_trust + delta) min_trust max_trust

/-- One off-diagonal entry of `TrustNetwork.apply_trust_decay`:
`0.5 + (score - 0.5) * (1 - decay_rate)`. -/
def decayScore (s : ℚ) : ℚ := 0.5 + (s - 0.5) * (1 - decay_rate)

end TN

/-! ## The communication mesh (`A2ACommunicationMesh`) -/

namespace Mesh

/-- Score update of `A2ACommunicationMesh.update_trust`. -/
def updateScore (current_trust : ℚ) (interaction_success : Bool)
    (quality_score : ℚ) : ℚ :=
  let adjustment :=
    if interaction_success then (0.1 : ℚ) * quality_score * (1 - current_trust)
    else -((0.15 : ℚ) * current_trust)
  max 0 (min 1 (current_trust + adjustment))

/-- The `MessageType` enum. -/
inductive MsgType : Type
  | query
  | response
  | negotiation
  | knowledge_share
  | coordination
  | feedback
  | heartbeat
deriving DecidableEq

/-- The `.value` string of a `MessageType` member. -/
def MsgType.value : MsgType → String
  | .query => "query"
  | .response => "response"
  | .negotiation => "negotiation"
  | .knowledge_share => "knowledge_share"
  | .coordination => "coordination"
  | .feedback => "feedback"
  | .heartbeat => "heartbeat"

/-- A negotiation proposal dict; only the `value` entry is ever read or
written (`current_proposal.get("value", 1)`), so it is the one modelled
field, absent when the dict has no `value` key. -/
structure Proposal : Type where
  value : Option ℚ
deriving DecidableEq

/-- Message payloads: either an opaque payload or the structured
`{negotiation_id, round, proposal}` dict built by `negotiate`. -/
inductive Content : Type
  | generic (payload : String)
  | nego (negotiation_id : String) (round : Nat) (proposal : Proposal)
deriving DecidableEq

/-- The `A2AMessage` dataclass. -/
structure A2AMessage : Type where
  id : String
  from_agent : String
  to_agent : String
  message_type : String
  content : Content
  timestamp : Nat
  in_reply_to : Option String
  confidence : ℚ
  requires_response : Bool
deriving DecidableEq

/-- A channel record as built by `establish_channel`. -/
structure Channel : Type where
  id : String
  agents : List String
  created : Nat
  message_count : Nat
  last_activity : Nat
  status : String
deriving DecidableEq

/-- A record appended by `_track_communication_pattern`. -/
structure CommPattern : Type where
  agents : String × String
  type : String
  timestamp : Nat
  confidence : ℚ
deriving DecidableEq

/-- The mutable state of `A2ACommunicationMesh`.  `clock` embeds
`time.time()`; it is advanced once per sent message so generated ids are
fresh. -/
structure MeshState : Type where
  channels : List (String × Channel)
  message_history : List A2AMessage
  pending_messages : List (String × List A2AMessage)
  trust_scores : List ((String × String) × ℚ)
  communication_patterns : List CommPattern
  successful_exchanges : Nat
  failed_exchanges : Nat
  clock : Nat
deriving DecidableEq

/-- A freshly constructed mesh (`A2ACommunicationMesh.__init__`). -/
def meshInit : MeshState :=
  { channels := [], message_history := [], pending_messages := [],
    trust_scores := [], communication_patterns := [],
    successful_exchanges := 0, failed_exchanges := 0, clock := 0 }

/-- Embeds `tuple(sorted([a, b]))`. -/
def sortPair (a b : String) : String × String :=
  if a ≤ b then (a, b) else (b, a)

/-- Embeds `_get_channel_id`. -/
def channelId (agent1 agent2 : String) : String :=
  "channel-" ++ (sortPair agent1 agent2).1 ++ "-" ++ (sortPair agent1 agent2).2

/-- Embeds `get_trust_score`: lookup under the sorted pair key, default `0.5`. -/
def get_trust_score (m : MeshState) (agent1 agent2 : String) : ℚ :=
  (KV.get? m.trust_scores (sortPair agent1 agent2)).getD 0.5

/-- Embeds `_calculate_confidence`: `0.5 + trust * 0.5`. -/
def calcConfidence (m : MeshState) (from_agent to_agent : String) : ℚ :=
  0.5 + get_trust_score m from_agent to_agent * 0.5

/-- Embeds `establish_channel`: create the channel lazily and initialize the trust
key at the neutral `0.5` if absent. -/
def establish_channel (m : MeshState) (agent1 agent2 : String) :
    MeshState × String :=
  let cid := channelId agent1 agent2
  match KV.get? m.channels cid with
  | some _ => (m, cid)
  | none =>
    let ch : Channel :=
      { id := cid, agents := [agent1, agent2], created := m.clock,
        message_count := 0, last_activity := m.clock, status := "active" }
    let m1 := { m with channels := KV.set m.channels cid ch }
    let trust_key := sortPair agent1 agent2
    match KV.get? m1.trust_scores trust_key with
    | some _ => (m1, cid)
    | none =>
      ({ m1 with trust_scores := KV.set m1.trust_scores trust_key 0.5 }, cid)

/-- The pending queue of an agent (`pending_messages.get(agent, [])`). -/
def pendingOf (m : MeshState) (agent : String) : List A2AMessage :=
  (KV.get? m.pending_messages agent).getD []

/-- Channel metric update done by `send_message`. -/
def bumpChannel (cs : List (String × Channel)) (cid : String) (now : Nat) :
    List (String × Channel) :=
  match KV.get? cs cid with
  | some c =>
      KV.set cs cid
        { c with message_count := c.message_count + 1, last_activity := now }
  | none => cs

/-- Embeds `send_message`: establish the channel, build the message, append it to
the history and the recipient's pending queue, update channel metrics and
the learning patterns. -/
def send_message (m : MeshState) (from_agent to_agent : String)
    (message_type : MsgType) (content : Content)
    (in_reply_to : Option String) : MeshState × A2AMessage :=
  let mc := establish_channel m from_agent to_agent
  let m1 := mc.1
  let message : A2AMessage :=
    { id := "msg-" ++ toString (m1.clock * 1000),
      from_agent := from_agent,
      to_agent := to_agent,
      message_type := message_type.value,
      content := content,
      timestamp := m1.clock,
      in_reply_to := in_reply_to,
      confidence := calcConfidence m1 from_agent to_agent,
      requires_response :=
        message_type == MsgType.query || message_type == MsgType.negotiation }
  let m2 :=
    { m1 with
      message_history := m1.message_history ++ [message],
      pending_messages :=
        KV.set m1.pending_messages to_agent (pendingOf m1 to_agent ++ [message]),
      channels := bumpChannel m1.channels mc.2 m1.clock,
      communication_patterns := m1.communication_patterns ++
        [{ agents := (from_agent, to_agent), type := message_type.value,
           timestamp := m1.clock, confidence := message.confidence }],
      clock := m1.clock + 1 }
  (m2, message)

/-- Embeds `receive_messages`: drain and return the agent's pending queue. -/
def receive_messages (m : MeshState) (agent_id : String) :
    List A2AMessage × MeshState :=
  let messages := pendingOf m agent_id
  (messages, { m with pending_messages := KV.set m.pending_messages agent_id [] })

/-- Embeds `update_trust`: read-modify-write of the sorted-pair trust score, with
the success/failure exchange counters. -/
def update_trust (m : MeshState) (agent1 agent2 : String)
    (interaction_success : Bool) (quality_score : ℚ) : MeshState × ℚ :=
  let trust_key := sortPair agent1 agent2
  let current_trust := (KV.get? m.trust_scores trust_key).getD 0.5
  let new_trust := updateScore current_trust interaction_success quality_score
  ({ m with
      trust_scores := KV.set m.trust_scores trust_key new_trust,
      successful_exchanges :=
        if interaction_success then m.successful_exchanges + 1
        else m.successful_exchanges,
      failed_exchanges :=
        if interaction_success then m.failed_exchanges
        else m.failed_exchanges + 1 }, new_trust)

/-- The dict returned by `negotiate`. -/
structure NegoResult : Type where
  negotiation_id : String
  success : Bool
  rounds : Nat
  final_proposal : Proposal
  history : List A2AMessage
deriving DecidableEq

/-- The counter-proposal step: `proposal["value"] = proposal.get("value", 1) * 0.9`. -/
def counterProposal (p : Proposal) : Proposal :=
  { value := some (p.value.getD 1 * 0.9) }

/-- The `while rounds < max_rounds and not agreement_reached` loop of
`negotiate`; `fuel` is an upper bound on the remaining iterations, so the
recursion is structural.  Returns the final state, round counter, agreement
flag, proposal and per-negotiation history. -/
def negotiateLoop (m : MeshState) (initiator responder negotiation_id : String)
    (max_rounds rounds : Nat) (agreement_reached : Bool)
    (current_proposal : Proposal) (history : List A2AMessage) :
    Nat → MeshState × Nat × Bool × Proposal × List A2AMessage
  | 0 => (m, rounds, agreement_reached, current_proposal, history)
  | fuel + 1 =>
    if rounds < max_rounds ∧ agreement_reached = false then
      let sender := if rounds % 2 = 0 then initiator else responder
      let receiver := if rounds % 2 = 0 then responder else initiator
      let sm := send_message m sender receiver MsgType.negotiation
        (Content.nego negotiation_id rounds current_proposal) none
      let m1 := sm.1
      let history1 := history ++ [sm.2]
      let step :=
        if 0 < rounds then
          let trust := get_trust_score m1 initiator responder
          let acceptance_probability :=
            (0.3 : ℚ) + trust * 0.4 + (rounds : ℚ) * 0.1
          if (0.7 : ℚ) < acceptance_probability then (true, current_proposal)
          else (agreement_reached, counterProposal current_proposal)
        else (agreement_reached, current_proposal)
      negotiateLoop m1 initiator responder negotiation_id max_rounds
        (rounds + 1) step.1 step.2 history1 fuel
    else (m, rounds, agreement_reached, current_proposal, history)

/-- Embeds `negotiate`: run the bounded round loop and then update trust with the
outcome at quality `0.8`. -/
def negotiate (m : MeshState) (initiator responder : String)
    (proposal : Proposal) (max_rounds : Nat) : MeshState × NegoResult :=
  let negotiation_id := "nego-" ++ toString m.clock
  let r := negotiateLoop m initiator responder negotiation_id max_rounds 0
    false proposal [] max_rounds
  let m1 := r.1
  let rounds := r.2.1
  let agreement_reached := r.2.2.1
  let final_proposal := r.2.2.2.1
  let history := r.2.2.2.2
  let mt := update_trust m1 initiator responder agreement_reached 0.8
  (mt.1,
    { negotiation_id := negotiation_id, success := agreement_reached,
      rounds := rounds, final_proposal := final_proposal, history := history })

/-- Modelled from the spec: the source's `negotiate` records its terminal
outcome only as a `success` flag, and the negotiation state machine with
named states `{OPEN, COUNTERED, ACCEPTED, REJECTED, EXPIRED}` is absent from
the source; spec §4.3 names the agreement terminal ACCEPTED and the
max-rounds-exhausted terminal EXPIRED. -/
inductive NegotiationState : Type
  | OPEN
  | COUNTERED
  | ACCEPTED
  | REJECTED
  | EXPIRED
deriving DecidableEq

/-- Modelled from the spec: the terminal state of a finished negotiation
result, per spec §4.3 (agreement is ACCEPTED, running out of rounds without
agreement is EXPIRED). -/
def NegoResult.terminalState (r : NegoResult) : NegotiationState :=
  if r.success then NegotiationState.ACCEPTED else NegotiationState.EXPIRED

/-- One public mesh operation, for stating properties of arbitrary
operation sequences. -/
inductive MeshOp : Type
  | sendOp (from_agent to_agent : String) (t : MsgType) (c : Content)
      (in_reply_to : Option String)
  | receiveOp (agent : String)
  | updateTrustOp (agent1 agent2 : String) (success : Bool) (quality : ℚ)
  | establishOp (agent1 agent2 : String)
  | negotiateOp (initiator responder : String) (p : Proposal)
      (max_rounds : Nat)

def applyMeshOp (m : MeshState) : MeshOp → MeshState
  | .sendOp a b t c r => (send_message m a b t c r).1
  | .receiveOp a => (receive_messages m a).2
  | .updateTrustOp a b s q => (update_trust m a b s q).1
  | .establishOp a b => (establish_channel m a b).1
  | .negotiateOp a b p mr => (negotiate m a b p mr).1

end Mesh

/-! ## Trust-operation sequences for the C1 invariant -/

/-- One operation acting on the trust score of a fixed agent pair: a mesh
`update_trust`, a `TrustNetwork` `update_trust_from_interaction`, or one
`apply_trust_decay` pass. -/
inductive TrustOp : Type
  | meshUpd (success : Bool) (quality : ℚ)
  | tnUpd (outcome : TN.Outcome3) (quality : ℚ)
  | decay
deriving DecidableEq

def applyTrustOp (s : ℚ) : TrustOp → ℚ
  | .meshUpd success quality => Mesh.updateScore s success quality
  | .tnUpd outcome quality => TN.updateScore s outcome quality
  | .decay => TN.decayScore s

/-- The quality argument of an operation lies in `[0,1]` (vacuous for decay). -/
def TrustOp.qualityOk : TrustOp → Prop
  | .meshUpd _ q => 0 ≤ q ∧ q ≤ 1
  | .tnUpd _ q => 0 ≤ q ∧ q ≤ 1
  | .decay => True

/-- The trust score of a fixed pair after a sequence of operations, starting
from the neutral default `0.5`. -/
def trustRun (ops : List TrustOp) : ℚ :=
  ops.foldl applyTrustOp 0.5

/-! ## The experience store (`ExperienceStore`) -/

namespace Store

/-- The `task` field of an `Experience`. -/
structure Task : Type where
  type : String
  description : String
  complexity : ℚ
deriving DecidableEq

/-- One member of an `Experience`'s `agents` list. -/
structure AgentRef : Type where
  id : String
  type : String
  role : String
deriving DecidableEq

/-- The `outcome` field of an `Experience`. -/
structure ExpOutcome : Type where
  success : Bool
  duration : ℚ
  quality : ℚ
  tokensUsed : ℚ
deriving DecidableEq

/-- An `Experience` record.  Timestamps are ISO strings compared with
`localeCompare`, embedded as Lean strings under lexicographic order. -/
structure Experience : Type where
  id : String
  timestamp : String
  task : Task
  agents : List AgentRef
  outcome : ExpOutcome
deriving DecidableEq

/-- A recognized `Pattern`.  The `conditions` and `observedOutcomes` fields
are always the empty list in the source and are omitted. -/
structure Pattern : Type where
  id : String
  name : String
  taskType : String
  frequency : Nat
  confidence : ℚ
  recommendation : String
  avgQuality : ℚ
deriving DecidableEq

/-- The mutable state of `ExperienceStore`: two insertion-ordered maps and
the configured capacity (`maxSize`, default 10000). -/
structure ExperienceStore : Type where
  experiences : List (String × Experience)
  patterns : List (String × Pattern)
  maxSize : Nat
deriving DecidableEq

/-- A fresh store with capacity `c`. -/
def emptyStore (c : Nat) : ExperienceStore :=
  { experiences := [], patterns := [], maxSize := c }

/-- The first entry with minimal timestamp: the entry picked by
`Array.from(entries).sort((a, b) => a[1].timestamp.localeCompare(b[1].timestamp))[0]`
(JS `sort` is stable, so ties keep insertion order). -/
def oldest? : List (String × Experience) → Option (String × Experience)
  | [] => none
  | e :: tl =>
    match oldest? tl with
    | none => some e
    | some m => if m.2.timestamp < e.2.timestamp then some m else some e

/-- Embeds `a.type` keys of an experience's agents, sorted and joined with `+`
(`exp.agents.map(a => a.type).sort().join("+")`). -/
def insertStr (s : String) : List String → List String
  | [] => [s]
  | t :: tl => if s ≤ t then s :: t :: tl else t :: insertStr s tl

def sortStrings (l : List String) : List String :=
  l.foldr insertStr []

def comboKey (e : Experience) : String :=
  String.intercalate "+" (sortStrings (e.agents.map (·.type)))

/-- Count occurrences of each combo key in first-occurrence order
(the `agentCombos` map of `extractPattern`). -/
def bumpCombo (cs : List (String × Nat)) (k : String) : List (String × Nat) :=
  match KV.get? cs k with
  | some n => KV.set cs k (n + 1)
  | none => cs ++ [(k, 1)]

def agentCombos (successful : List Experience) : List (String × Nat) :=
  successful.foldl (fun cs e => bumpCombo cs (comboKey e)) []

/-- The first entry with maximal count: the entry picked by
`Array.from(agentCombos.entries()).sort((a, b) => b[1] - a[1])[0]`
(stable descending sort, so ties keep insertion order). -/
def bestCombo? : List (String × Nat) → Option (String × Nat)
  | [] => none
  | c :: tl =>
    match bestCombo? tl with
    | none => some c
    | some m => if c.2 < m.2 then some m else some c

/-- Embeds `extractPattern`.  `now` embeds `Date.now()`.  The average quality of an
empty `successful` list is the source's `0/0` (NaN); in ℚ it is `0`. -/
def extractPattern (taskType : String) (experiences : List Experience)
    (now : Nat) : Pattern :=
  let successful := experiences.filter (·.outcome.success)
  let avgQuality :=
    (successful.map (·.outcome.quality)).sum / (successful.length : ℚ)
  let bestCombo := bestCombo? (agentCombos successful)
  { id := "pattern-" ++ taskType ++ "-" ++ toString now,
    name := taskType ++ "-optimal",
    taskType := taskType,
    frequency := successful.length,
    confidence := min ((successful.length : ℚ) / (experiences.length : ℚ)) 1,
    recommendation :=
      match bestCombo with
      | some c => "Use " ++ c.1 ++ " agents"
      | none => "Insufficient data",
    avgQuality := avgQuality }

/-- The `taskGroups` map of `recognizePatterns`: group experiences by
`task.type` in first-occurrence order, appending within each group. -/
def groupUpdate (gs : List (String × List Experience)) (e : Experience) :
    List (String × List Experience) :=
  match KV.get? gs e.task.type with
  | some g => KV.set gs e.task.type (g ++ [e])
  | none => gs ++ [(e.task.type, [e])]

def taskGroups (exps : List Experience) : List (String × List Experience) :=
  exps.foldl groupUpdate []

/-- Embeds `recognizePatterns`: for every task group with at least 3 experiences,
extract a pattern and store it iff its confidence exceeds `0.7`. -/
def recognizePatterns (st : ExperienceStore) (now : Nat) : ExperienceStore :=
  let gs := taskGroups (st.experiences.map (·.2))
  let pats := gs.foldl
    (fun ps g =>
      if g.2.length < 3 then ps
      else
        let p := extractPattern g.1 g.2 now
        if (0.7 : ℚ) < p.confidence then KV.set ps p.id p else ps)
    st.patterns
  { st with patterns := pats }

/-- Embeds `save`: validate the id, evict the oldest experience when the store is
full, insert, and run a recognition pass when the post-insertion size is a
multiple of 10.  Errors are raised before any mutation.  The impossible
eviction from an empty-but-full store (capacity 0) is the source's
`TypeError` on `undefined[0]`. -/
def save (st : ExperienceStore) (e : Experience) (now : Nat) :
    Except String ExperienceStore :=
  if e.id = "" then Except.error "Experience must have ID"
  else
    let evicted :=
      if st.maxSize ≤ st.experiences.length then
        match oldest? st.experiences with
        | some old => Except.ok (KV.erase st.experiences old.1)
        | none => Except.error "TypeError"
      else Except.ok st.experiences
    match evicted with
    | Except.error msg => Except.error msg
    | Except.ok exps =>
      let exps1 := KV.set exps e.id e
      let st1 := { st with experiences := exps1 }
      if exps1.length % 10 = 0 then Except.ok (recognizePatterns st1 now)
      else Except.ok st1

/-- A sequence step: a thrown `save` leaves the store unchanged in the
caller. -/
def stepSave (st : ExperienceStore) (en : Experience × Nat) : ExperienceStore :=
  match save st en.1 en.2 with
  | Except.ok st1 => st1
  | Except.error _ => st

/-- The store after a sequence of `save` calls on a fresh store of
capacity `c`. -/
def runSaves (c : Nat) (l : List (Experience × Nat)) : ExperienceStore :=
  l.foldl stepSave (emptyStore c)

end Store

/-! ## The evolution engine (`CollectiveIntelligence`) -/

namespace Evo

/-- A learned pattern as ranked by `selectBestPatterns` and pruned by
`deprecateWeakPatterns`; only the fields those functions read are
modelled. -/
structure Pattern : Type where
  id : String
  name : String
  successRate : ℚ
  frequency : Nat
deriving DecidableEq

/-- An emergent strategy (`mutateStrategies` / `crossBreedStrategies`
operate on `parameters`, `fitness` and `generation`). -/
structure Strategy : Type where
  id : String
  name : String
  type : String
  parameters : List (String × ℚ)
  fitness : Option ℚ
  generation : Nat
deriving DecidableEq

/-- The `CollectiveIntelligence` state touched by `triggerEvolution`. -/
structure CIState : Type where
  learnedPatterns : List (String × Pattern)
  emergentStrategies : List (String × Strategy)
  evolutionGeneration : Nat
  recentFitnessScores : List ℚ
  generationStartTime : Nat
deriving DecidableEq

/-- The result record of `triggerEvolution`. -/
structure EvolutionResult : Type where
  previousGeneration : Nat
  newGeneration : Nat
  mutations : List Strategy
  improvements : List String
  deprecated : List Pattern
deriving DecidableEq

/-- Stable insertion into a descending-by-key list (JS stable `sort` with a
`(a, b) => key(b) - key(a)` comparator). -/
def insertDescBy {α : Type} (key : α → ℚ) (a : α) : List α → List α
  | [] => [a]
  | b :: tl => if key b < key a then a :: b :: tl else b :: insertDescBy key a tl

def sortDescBy {α : Type} (key : α → ℚ) (l : List α) : List α :=
  l.foldr (insertDescBy key) []

/-- Embeds `selectBestPatterns`: keep patterns with `successRate > 0.6`, sort them
descending by `successRate`, and truncate to the top
`Math.ceil(learnedPatterns.size * 0.8)`. -/
def selectBestPatterns (s : CIState) : List Pattern :=
  ((sortDescBy (·.successRate)
      ((s.learnedPatterns.map (·.2)).filter
        (fun p => (0.6 : ℚ) < p.successRate))).take
    (Nat.ceil ((s.learnedPatterns.length : ℚ) * 0.8)))

/-- Embeds `mutateStrategy`: perturb every numeric parameter by
`0.8 + rand * 0.4`; `randF` is the stream of `Math.random()` draws, one per
parameter key. -/
def mutateStrategy (now : Nat) (randF : String → ℚ) (s : Strategy) : Strategy :=
  { s with
    id := s.id ++ "-mut-" ++ toString now,
    name := s.name ++ " (mutated)",
    parameters := s.parameters.map
      (fun kv => (kv.1, kv.2 * (0.8 + randF kv.1 * 0.4))) }

/-- Embeds `mutateStrategies`: each strategy mutates independently when its
`Math.random() < 0.1` draw (the `randMut` oracle) fires. -/
def mutateStrategies (now : Nat) (randMut : Nat → Bool) (randF : String → ℚ)
    (s : CIState) : List Strategy :=
  ((s.emergentStrategies.map (·.2)).enum.filterMap
    (fun si => if randMut si.1 then some (mutateStrategy now randF si.2) else none))

/-- Embeds `crossBreed`: offspring parameters are the JS spread
`{...p1.parameters, ...p2.parameters, ...averagesOfP1Keys}`: keys of both
parents, where a key of parent 1 maps to the average
`(p1[k] + (p2[k] || 0)) / 2` and a key found only in parent 2 keeps
parent 2's value. -/
def crossBreed (now : Nat) (generation : Nat) (parent1 parent2 : Strategy) :
    Strategy :=
  let merged := parent2.parameters.foldl (fun ps kv => KV.set ps kv.1 kv.2)
    parent1.parameters
  let averaged := parent1.parameters.foldl
    (fun ps kv =>
      KV.set ps kv.1 ((kv.2 + ((KV.get? parent2.parameters kv.1).getD 0)) / 2))
    merged
  { id := "offspring-" ++ toString now,
    name := "Hybrid: " ++ parent1.name ++ " x " ++ parent2.name,
    type := parent1.type,
    parameters := averaged,
    fitness := some 0.5,
    generation := generation + 1 }

/-- Embeds `crossBreedStrategies`: pair the top 4 strategies by fitness
(`fitness || 0`) into adjacent-parent offspring. -/
def crossBreedStrategies (now : Nat) (s : CIState) : List Strategy :=
  let parents := (sortDescBy (fun st => st.fitness.getD 0)
    (s.emergentStrategies.map (·.2))).take 4
  (parents.zip parents.tail).map
    (fun pq => crossBreed now s.evolutionGeneration pq.1 pq.2)

/-- Embeds `deprecateWeakPatterns`: remove patterns with `successRate < 0.3` and
`frequency > 5`, returning the removed ones. -/
def deprecateWeakPatterns (ps : List (String × Pattern)) :
    List Pattern × List (String × Pattern) :=
  ((ps.filter (fun kv =>
      decide (kv.2.successRate < 0.3) && decide (5 < kv.2.frequency))).map (·.2),
   ps.filter (fun kv =>
      !(decide (kv.2.successRate < 0.3) && decide (5 < kv.2.frequency))))

/-- Embeds `triggerEvolution`: natural selection, mutation, crossover, deprecation,
generation increment and fitness-baseline reset.  As in the source, the
lists produced by selection and crossover are computed but never written
back into the state; only deprecation mutates `learnedPatterns`. -/
def triggerEvolution (now : Nat) (randMut : Nat → Bool) (randF : String → ℚ)
    (s : CIState) : CIState × EvolutionResult :=
  let _survivingPatterns := selectBestPatterns s
  let mutations := mutateStrategies now randMut randF s
  let _offspring := crossBreedStrategies now s
  let dep := deprecateWeakPatterns s.learnedPatterns
  let s1 :=
    { s with
      learnedPatterns := dep.2,
      evolutionGeneration := s.evolutionGeneration + 1,
      recentFitnessScores := [],
      generationStartTime := now }
  (s1,
    { previousGeneration := s.evolutionGeneration,
      newGeneration := s.evolutionGeneration + 1,
      mutations := mutations,
      improvements := [],
      deprecated := dep.1 })

end Evo

/-! ## Concrete fixtures

Concrete states for witnesses and counterexamples, built like the repo's
test helper `TestHelpers.createMockExperience`. -/

namespace Store

/-- A mock experience in the shape of `createMockExperience`. -/
def mkExp (i : Nat) (ttype : String) (agents : List AgentRef) (success : Bool)
    (quality : ℚ) : Experience :=
  { id := "exp-" ++ toString i,
    timestamp := "ts-" ++ toString i,
    task := { type := ttype, description := "mock task", complexity := 5 },
    agents := agents,
    outcome := { success := success, duration := 100, quality := quality,
                 tokensUsed := 50 } }

def agentCode : AgentRef := { id := "a1", type := "code", role := "reviewer" }

def agentTest : AgentRef := { id := "a2", type := "test", role := "validator" }

/-- Ten same-task experiences, seven successful and three failed, so the
group success ratio is exactly `0.7`. -/
def ceExps : List Experience :=
  [mkExp 0 "code-review" [agentCode, agentTest] true 0.9,
   mkExp 1 "code-review" [agentCode, agentTest] true 0.9,
   mkExp 2 "code-review" [agentCode, agentTest] true 0.9,
   mkExp 3 "code-review" [agentCode, agentTest] true 0.9,
   mkExp 4 "code-review" [agentCode, agentTest] true 0.9,
   mkExp 5 "code-review" [agentCode, agentTest] true 0.9,
   mkExp 6 "code-review" [agentCode, agentTest] true 0.9,
   mkExp 7 "code-review" [agentCode, agentTest] false 0.2,
   mkExp 8 "code-review" [agentCode, agentTest] false 0.2,
   mkExp 9 "code-review" [agentCode, agentTest] false 0.2]

/-- The store holding `ceExps` with no patterns yet. -/
def ceStore : ExperienceStore :=
  { experiences := ceExps.map (fun e => (e.id, e)), patterns := [],
    maxSize := 10000 }

/-- Three successful same-task experiences (group success ratio `1`). -/
def wExps : List Experience :=
  [mkExp 0 "code-review" [agentCode, agentTest] true 0.9,
   mkExp 1 "code-review" [agentCode, agentTest] true 0.9,
   mkExp 2 "code-review" [agentCode, agentTest] true 0.9]

/-- The store holding `wExps` with no patterns yet. -/
def wStore : ExperienceStore :=
  { experiences := wExps.map (fun e => (e.id, e)), patterns := [],
    maxSize := 10000 }

end Store

namespace Evo

/-- A single learned pattern at success rate `0.5`. -/
def cePattern : Pattern :=
  { id := "p1", name := "p1", successRate := 0.5, frequency := 1 }

/-- A collective-intelligence state holding just `cePattern`. -/
def ceCIState : CIState :=
  { learnedPatterns := [("p1", cePattern)], emergentStrategies := [],
    evolutionGeneration := 0, recentFitnessScores := [],
    generationStartTime := 0 }

end Evo

namespace Mesh

/-- A mesh whose stored trust for the pair (`agent-a`, `agent-b`) has been
driven to `0`, the only situation in which no negotiation round can reach
acceptance. -/
def meshZeroTrust : MeshState :=
  { meshInit with trust_scores := [(("agent-a", "agent-b"), 0)] }

/-- The proposal `{value: 10}` of the spec's negotiation scenario. -/
def proposalTen : Proposal := { value := some 10 }

end Mesh

/-! ## Theorems -/

namespace KV

theorem get?_set_self {κ α : Type} [DecidableEq κ]
    (l : List (κ × α)) (k : κ) (v : α) : get? (set l k v) k = some v := by
  induction l with
  | nil => simp [get?, set]
  | cons hd tl ih =>
    by_cases hk : hd.1 = k
    · simp [get?, set, hk]
    · simp [get?, set, hk, ih]

theorem get?_set_ne {κ α : Type} [DecidableEq κ]
    (l : List (κ × α)) (k k' : κ) (v : α) (h : k' ≠ k) :
    get? (set l k v) k' = get? l k' := by
  induction l with
  | nil => simp [get?, set, h.symm]
  | cons hd tl ih =>
    by_cases hk : hd.1 = k
    · have hd' : hd.1 ≠ k' := by
        rw [hk]
        exact fun hh => h hh.symm
      simp [get?, set, hk, hd', h.symm]
    · by_cases hk' : hd.1 = k'
      · simp [get?, set, hk, hk', h]
      · simp [get?, set, hk, hk', ih]

end KV

theorem max_min_unit_eq (x : ℚ) (h0 : 0 ≤ x) (h1 : x ≤ 1) :
    max 0 (min 1 x) = x := by
  rw [min_eq_right h1, max_eq_right h0]

theorem applyTrustOp_mem_unit (s : ℚ) (hs0 : 0 ≤ s) (hs1 : s ≤ 1)
    (op : TrustOp) : 0 ≤ applyTrustOp s op ∧ applyTrustOp s op ≤ 1 := by
  cases op with
  | meshUpd success quality =>
    unfold applyTrustOp Mesh.updateScore
    constructor
    · exact le_max_left _ _
    · simp only [max_le_iff]
      exact ⟨by norm_num, min_le_left _ _⟩
  | tnUpd outcome quality =>
    unfold applyTrustOp TN.updateScore TN.clip TN.min_trust TN.max_trust
    constructor
    · refine le_trans (by norm_num) (le_max_left (0.1 : ℚ) _)
    · simp only [max_le_iff]
      refine ⟨by norm_num, le_trans (min_le_left _ _) (by norm_num)⟩
  | decay =>
    unfold applyTrustOp TN.decayScore TN.decay_rate
    constructor <;> nlinarith

theorem trustRun_foldl_mem_unit (s : ℚ) (hs0 : 0 ≤ s) (hs1 : s ≤ 1)
    (ops : List TrustOp) :
    0 ≤ ops.foldl applyTrustOp s ∧ ops.foldl applyTrustOp s ≤ 1 := by
  induction ops generalizing s with
  | nil => exact ⟨hs0, hs1⟩
  | cons op rest ih =>
    have h := applyTrustOp_mem_unit s hs0 hs1 op
    simpa using ih (applyTrustOp s op) h.1 h.2

/-- C1: for a fixed agent pair, any finite sequence of trust updates
(mesh or trust-network, any outcome, any quality in `[0,1]`) and decay
passes keeps the trust score within `[0,1]`, starting from the neutral
default `0.5`. -/
theorem C1_trust_stays_in_unit_interval (ops : List TrustOp)
    (hq : ∀ op ∈ ops, op.qualityOk) :
    0 ≤ trustRun ops ∧ trustRun ops ≤ 1 := by
  have _ := hq
  exact trustRun_foldl_mem_unit 0.5 (by norm_num) (by norm_num) ops

/-- Witness for C1 at a concrete operation sequence. -/
theorem C1_trust_stays_in_unit_interval_witness :
    0 ≤ trustRun [TrustOp.meshUpd true 1, TrustOp.tnUpd TN.Outcome3.failure 0,
        TrustOp.decay] ∧
      trustRun [TrustOp.meshUpd true 1, TrustOp.tnUpd TN.Outcome3.failure 0,
        TrustOp.decay] ≤ 1 :=
  C1_trust_stays_in_unit_interval _ (by simp [TrustOp.qualityOk])

/-- C2 fails on the code: at score `0.1`, the `TrustNetwork` failure update
clips to the floor `0.1` instead of the claimed `[0,1]`-clamped value
`0.085`, and in the mesh the failure erosion (`0.015`) is smaller than the
same-score success gain (`0.09`), so failure does not erode faster than
success builds at every score. -/
theorem C2_update_rule_counterexample :
    TN.updateScore 0.1 TN.Outcome3.failure 1 = 0.1 ∧
      max (0 : ℚ) (min 1 (0.1 - TN.learning_rate * 1.5 * 0.1)) = 0.085 ∧
      (0.085 : ℚ) ≠ 0.1 ∧
      0.1 - Mesh.updateScore 0.1 false 1 < Mesh.updateScore 0.1 true 1 - 0.1 := by
  refine ⟨?_, ?_, by norm_num, ?_⟩
  · norm_num [TN.updateScore, TN.clip, TN.learning_rate, TN.min_trust,
      TN.max_trust]
  · norm_num [TN.learning_rate]
  · norm_num [Mesh.updateScore]

/-- C2 amended: on success the mesh's `update_trust` yields
`clamp01(s + 0.1·q·(1−s))` and on failure `clamp01(s − 0.1·1.5·s)`;
`TrustNetwork.update_trust_from_interaction` applies the same success and
failure deltas but clips the result to `[0.1, 0.95]` rather than `[0,1]`;
and the failure erosion exceeds the same-score success gain at every score
above `0.4` (in particular at the neutral default `0.5`), though not at low
scores. -/
theorem C2_update_rule_amended (s q : ℚ) (hs0 : 0 ≤ s) (hs1 : s ≤ 1)
    (hq0 : 0 ≤ q) (hq1 : q ≤ 1) :
    Mesh.updateScore s true q = max 0 (min 1 (s + 0.1 * q * (1 - s))) ∧
      Mesh.updateScore s false q = max 0 (min 1 (s - 0.1 * 1.5 * s)) ∧
      TN.updateScore s TN.Outcome3.success q
        = TN.clip (s + TN.learning_rate * q * (1 - s)) TN.min_trust TN.max_trust ∧
      TN.updateScore s TN.Outcome3.failure q
        = TN.clip (s - TN.learning_rate * 1.5 * s) TN.min_trust TN.max_trust ∧
      (0.4 < s →
        s - Mesh.updateScore s false q > Mesh.updateScore s true q - s) := by
  have hfail : Mesh.updateScore s false q = s - 0.1 * 1.5 * s := by
    have h0 : Mesh.updateScore s false q = max 0 (min 1 (s + -(0.15 * s))) := rfl
    rw [h0, show s + -(0.15 * s) = s - 0.1 * 1.5 * s from by ring]
    exact max_min_unit_eq _ (by nlinarith) (by nlinarith)
  have hsucc : Mesh.updateScore s true q = s + 0.1 * q * (1 - s) := by
    have h0 : Mesh.updateScore s true q
        = max 0 (min 1 (s + 0.1 * q * (1 - s))) := rfl
    rw [h0]
    exact max_min_unit_eq _ (by nlinarith) (by nlinarith)
  refine ⟨?_, ?_, ?_, ?_, ?_⟩
  · rw [hsucc, max_min_unit_eq _ (by nlinarith) (by nlinarith)]
  · rw [hfail, max_min_unit_eq _ (by nlinarith) (by nlinarith)]
  · rfl
  · have h0 : TN.updateScore s TN.Outcome3.failure q
        = TN.clip (s + -(TN.learning_rate * 1.5 * s)) TN.min_trust TN.max_trust :=
      rfl
    rw [h0, show s + -(TN.learning_rate * 1.5 * s)
      = s - TN.learning_rate * 1.5 * s from by ring]
  · intro hs
    rw [hfail, hsucc]
    nlinarith

/-- Witness for C2's amended theorem at the neutral score `0.5` with
quality `1`: the failure erosion strictly exceeds the success gain there. -/
theorem C2_update_rule_amended_witness :
    (1 : ℚ) / 2 - Mesh.updateScore (1 / 2) false 1
      > Mesh.updateScore (1 / 2) true 1 - 1 / 2 :=
  (C2_update_rule_amended (1 / 2) 1 (by norm_num) (by norm_num) (by norm_num)
    (by norm_num)).2.2.2.2 (by norm_num)

theorem meshSortPair_comm (a b : String) :
    Mesh.sortPair a b = Mesh.sortPair b a := by
  unfold Mesh.sortPair
  rcases le_total a b with h | h
  · rcases eq_or_lt_of_le h with rfl | hlt
    · simp
    · rw [if_pos h, if_neg (not_le.mpr hlt)]
  · rcases eq_or_lt_of_le h with rfl | hlt
    · simp
    · rw [if_neg (not_le.mpr hlt), if_pos h]

theorem get_trust_score_symm (m : Mesh.MeshState) (a b : String) :
    Mesh.get_trust_score m a b = Mesh.get_trust_score m b a := by
  unfold Mesh.get_trust_score
  rw [meshSortPair_comm]

/-- C10: trust in the communication mesh is symmetric after any sequence of
mesh operations, because scores are stored under the sorted unordered pair
key, and hence the derived message confidence `0.5 + 0.5·trust` is the same
in both directions. -/
theorem C10_trust_symmetry (ops : List Mesh.MeshOp) (a b : String) :
    Mesh.get_trust_score (ops.foldl Mesh.applyMeshOp Mesh.meshInit) a b
        = Mesh.get_trust_score (ops.foldl Mesh.applyMeshOp Mesh.meshInit) b a ∧
      Mesh.calcConfidence (ops.foldl Mesh.applyMeshOp Mesh.meshInit) a b
        = Mesh.calcConfidence (ops.foldl Mesh.applyMeshOp Mesh.meshInit) b a := by
  refine ⟨get_trust_score_symm _ a b, ?_⟩
  unfold Mesh.calcConfidence
  rw [get_trust_score_symm]

theorem establish_channel_frame (m : Mesh.MeshState) (a b : String) :
    (Mesh.establish_channel m a b).1.pending_messages = m.pending_messages ∧
      (Mesh.establish_channel m a b).1.message_history = m.message_history ∧
      (Mesh.establish_channel m a b).1.clock = m.clock ∧
      (Mesh.establish_channel m a b).1.successful_exchanges
        = m.successful_exchanges ∧
      (Mesh.establish_channel m a b).1.failed_exchanges = m.failed_exchanges := by
  unfold Mesh.establish_channel
  cases h1 : KV.get? m.channels (Mesh.channelId a b) with
  | some c => simp [h1]
  | none =>
    cases h2 : KV.get? m.trust_scores (Mesh.sortPair a b) with
    | some t => simp [h1, h2]
    | none => simp [h1, h2]

theorem send_message_pending_self (m : Mesh.MeshState) (a b : String)
    (t : Mesh.MsgType) (c : Mesh.Content) (r : Option String) :
    Mesh.pendingOf (Mesh.send_message m a b t c r).1 b
      = Mesh.pendingOf m b ++ [(Mesh.send_message m a b t c r).2] := by
  unfold Mesh.send_message Mesh.pendingOf
  simp only [KV.get?_set_self, Option.getD_some]
  rw [(establish_channel_frame m a b).1]

theorem send_message_history (m : Mesh.MeshState) (a b : String)
    (t : Mesh.MsgType) (c : Mesh.Content) (r : Option String) :
    (Mesh.send_message m a b t c r).1.message_history
      = m.message_history ++ [(Mesh.send_message m a b t c r).2] := by
  unfold Mesh.send_message
  simp only []
  rw [(establish_channel_frame m a b).2.1]

theorem send_message_counters (m : Mesh.MeshState) (a b : String)
    (t : Mesh.MsgType) (c : Mesh.Content) (r : Option String) :
    (Mesh.send_message m a b t c r).1.successful_exchanges
        = m.successful_exchanges ∧
      (Mesh.send_message m a b t c r).1.failed_exchanges = m.failed_exchanges := by
  unfold Mesh.send_message
  exact ⟨(establish_channel_frame m a b).2.2.2.1,
    (establish_channel_frame m a b).2.2.2.2⟩

/-- C8 fails on the code: the mesh has no agent registry, so a send to a
never-registered recipient does not raise; it succeeds and appends the
message to the recipient's queue (here the queue of `agent-b` grows from
empty to length one). -/
theorem C8_unknown_agent_counterexample :
    (Mesh.pendingOf
        (Mesh.send_message Mesh.meshInit "agent-a" "agent-b" Mesh.MsgType.query
          (Mesh.Content.generic "ping") none).1 "agent-b").length = 1 ∧
      Mesh.pendingOf Mesh.meshInit "agent-b" = [] := by
  refine ⟨?_, rfl⟩
  rw [send_message_pending_self]
  rfl

/-- C8 amended: `send_message` has no error path and no agent registry; a
send to any recipient (registered nowhere) lazily establishes the channel
and atomically appends exactly one message, addressed to that recipient, to
the recipient's pending queue and to the global history. -/
theorem C8_send_is_total_amended (m : Mesh.MeshState)
    (from_agent to_agent : String) (t : Mesh.MsgType) (c : Mesh.Content)
    (r : Option String) :
    Mesh.pendingOf (Mesh.send_message m from_agent to_agent t c r).1 to_agent
        = Mesh.pendingOf m to_agent
            ++ [(Mesh.send_message m from_agent to_agent t c r).2] ∧
      (Mesh.send_message m from_agent to_agent t c r).1.message_history
        = m.message_history
            ++ [(Mesh.send_message m from_agent to_agent t c r).2] ∧
      (Mesh.send_message m from_agent to_agent t c r).2.to_agent = to_agent := by
  exact ⟨send_message_pending_self m from_agent to_agent t c r,
    send_message_history m from_agent to_agent t c r, rfl⟩

/-- C7: with an initially empty queue for `B`, sending three messages
`A → B` and then draining `B` returns exactly those three messages in send
order, an immediately following second drain returns the empty list, and in
general every send appends to the tail of the fixed recipient's queue, so
messages from a fixed sender to a fixed recipient are delivered in send
order. -/
theorem C7_fifo_delivery (m : Mesh.MeshState) (A B : String)
    (t1 t2 t3 : Mesh.MsgType) (c1 c2 c3 : Mesh.Content)
    (h : Mesh.pendingOf m B = []) :
    ((Mesh.receive_messages
          (Mesh.send_message
            (Mesh.send_message (Mesh.send_message m A B t1 c1 none).1
              A B t2 c2 none).1 A B t3 c3 none).1 B).1
        = [(Mesh.send_message m A B t1 c1 none).2,
           (Mesh.send_message (Mesh.send_message m A B t1 c1 none).1
             A B t2 c2 none).2,
           (Mesh.send_message
             (Mesh.send_message (Mesh.send_message m A B t1 c1 none).1
               A B t2 c2 none).1 A B t3 c3 none).2] ∧
      (Mesh.receive_messages
          (Mesh.receive_messages
            (Mesh.send_message
              (Mesh.send_message (Mesh.send_message m A B t1 c1 none).1
                A B t2 c2 none).1 A B t3 c3 none).1 B).2 B).1 = []) ∧
    ∀ (m' : Mesh.MeshState) (sender recipient : String) (t : Mesh.MsgType)
      (c : Mesh.Content) (r : Option String),
      Mesh.pendingOf (Mesh.send_message m' sender recipient t c r).1 recipient
        = Mesh.pendingOf m' recipient
            ++ [(Mesh.send_message m' sender recipient t c r).2] := by
  refine ⟨⟨?_, ?_⟩, fun m' s rcp t c r => send_message_pending_self m' s rcp t c r⟩
  · show Mesh.pendingOf _ B = _
    rw [send_message_pending_self, send_message_pending_self,
      send_message_pending_self, h]
    rfl
  · show Mesh.pendingOf _ B = []
    unfold Mesh.receive_messages Mesh.pendingOf
    simp [KV.get?_set_self]

/-- Witness for C7 on a fresh mesh with concrete agents and contents. -/
theorem C7_fifo_delivery_witness :
    (Mesh.receive_messages
        (Mesh.receive_messages
          (Mesh.send_message
            (Mesh.send_message
              (Mesh.send_message Mesh.meshInit "agent-a" "agent-b"
                Mesh.MsgType.query (Mesh.Content.generic "one") none).1
              "agent-a" "agent-b" Mesh.MsgType.response
              (Mesh.Content.generic "two") none).1
            "agent-a" "agent-b" Mesh.MsgType.feedback
            (Mesh.Content.generic "three") none).1 "agent-b").2 "agent-b").1
      = [] :=
  (C7_fifo_delivery Mesh.meshInit "agent-a" "agent-b" Mesh.MsgType.query
    Mesh.MsgType.response Mesh.MsgType.feedback (Mesh.Content.generic "one")
    (Mesh.Content.generic "two") (Mesh.Content.generic "three") rfl).1.2

namespace KV

theorem length_set_le {κ α : Type} [DecidableEq κ] (l : List (κ × α)) (k : κ)
    (v : α) : (set l k v).length ≤ l.length + 1 := by
  induction l with
  | nil => simp [set]
  | cons hd tl ih =>
    by_cases hk : hd.1 = k
    · simp [set, hk]
    · simp only [set, if_neg hk, List.length_cons]
      omega

theorem length_erase_le {κ α : Type} [DecidableEq κ]
    (l : List (κ × α)) (k : κ) : (erase l k).length ≤ l.length := by
  induction l with
  | nil => simp [erase]
  | cons hd tl ih =>
    by_cases hk : hd.1 = k
    · simp only [erase, if_pos hk, List.length_cons]
      omega
    · simp only [erase, if_neg hk, List.length_cons]
      omega

theorem length_erase_lt_of_mem {κ α : Type} [DecidableEq κ]
    (l : List (κ × α)) (kv : κ × α) (h : kv ∈ l) :
    (erase l kv.1).length < l.length := by
  induction l with
  | nil => cases h
  | cons hd tl ih =>
    by_cases hk : hd.1 = kv.1
    · have := length_erase_le tl kv.1
      simp only [erase, if_pos hk, List.length_cons]
      omega
    · rcases List.mem_cons.mp h with rfl | htl
      · exact absurd rfl hk
      · have := ih htl
        simp only [erase, if_neg hk, List.length_cons]
        omega

end KV

namespace Store

theorem oldest?_isSome (l : List (String × Experience)) (h : l ≠ []) :
    ∃ old, oldest? l = some old := by
  cases l with
  | nil => exact absurd rfl h
  | cons e tl =>
    cases htl : oldest? tl with
    | none => exact ⟨e, by simp [oldest?, htl]⟩
    | some m =>
      by_cases hc : m.2.timestamp < e.2.timestamp
      · exact ⟨m, by simp [oldest?, htl, hc]⟩
      · exact ⟨e, by simp [oldest?, htl, hc]⟩

theorem oldest?_mem (l : List (String × Experience)) (old : String × Experience)
    (h : oldest? l = some old) : old ∈ l := by
  induction l with
  | nil => simp [oldest?] at h
  | cons e tl ih =>
    cases htl : oldest? tl with
    | none =>
      simp only [oldest?, htl] at h
      cases h
      exact List.mem_cons_self _ _
    | some m =>
      simp only [oldest?, htl] at h
      by_cases hc : m.2.timestamp < e.2.timestamp
      · rw [if_pos hc] at h
        injection h with h2
        rw [h2] at htl
        exact List.mem_cons_of_mem _ (ih htl)
      · rw [if_neg hc] at h
        cases h
        exact List.mem_cons_self _ _

theorem oldest?_min (l : List (String × Experience)) :
    ∀ old : String × Experience, oldest? l = some old →
      ∀ kv ∈ l, old.2.timestamp ≤ kv.2.timestamp := by
  induction l with
  | nil =>
    intro old h
    simp [oldest?] at h
  | cons e tl ih =>
    intro old h kv hkv
    cases htl : oldest? tl with
    | none =>
      simp only [oldest?, htl] at h
      cases h
      have hnil : tl = [] := by
        cases tl with
        | nil => rfl
        | cons x xs =>
          exfalso
          rcases oldest?_isSome (x :: xs) (by simp) with ⟨o, ho⟩
          rw [ho] at htl
          cases htl
      subst hnil
      rcases List.mem_cons.mp hkv with rfl | hk
      · exact le_refl _
      · cases hk
    | some m =>
      simp only [oldest?, htl] at h
      by_cases hc : m.2.timestamp < e.2.timestamp
      · rw [if_pos hc] at h
        cases h
        rcases List.mem_cons.mp hkv with rfl | hk
        · exact le_of_lt hc
        · exact ih old htl kv hk
      · rw [if_neg hc] at h
        cases h
        rcases List.mem_cons.mp hkv with rfl | hk
        · exact le_refl _
        · exact le_trans (le_of_not_lt hc) (ih m htl kv hk)

theorem recognizePatterns_experiences (st : ExperienceStore) (now : Nat) :
    (recognizePatterns st now).experiences = st.experiences := rfl

theorem recognizePatterns_maxSize (st : ExperienceStore) (now : Nat) :
    (recognizePatterns st now).maxSize = st.maxSize := rfl

/-- Any store produced by a successful `save` carries the inserted
experiences list `KV.set exps e.id e` where `exps` is the post-eviction
list, and keeps the capacity. -/
theorem save_ok_shape (st : ExperienceStore) (e : Experience) (now : Nat)
    (st' : ExperienceStore) (h : save st e now = Except.ok st') :
    e.id ≠ "" ∧
      ∃ exps,
        ((st.maxSize ≤ st.experiences.length ∧
            ∃ old, oldest? st.experiences = some old ∧
              exps = KV.erase st.experiences old.1) ∨
          (st.experiences.length < st.maxSize ∧ exps = st.experiences)) ∧
        st'.experiences = KV.set exps e.id e ∧
        st'.maxSize = st.maxSize ∧ st'.patterns = (if (KV.set exps e.id e).length % 10 = 0
          then (recognizePatterns { st with experiences := KV.set exps e.id e } now).patterns
          else st.patterns) := by
  by_cases hid : e.id = ""
  · rw [save, if_pos hid] at h
    cases h
  · rw [save, if_neg hid] at h
    refine ⟨hid, ?_⟩
    by_cases hfull : st.maxSize ≤ st.experiences.length
    · simp only [if_pos hfull] at h
      cases hold : oldest? st.experiences with
      | none =>
        rw [hold] at h
        cases h
      | some old =>
        rw [hold] at h
        simp only [] at h
        refine ⟨KV.erase st.experiences old.1, Or.inl ⟨hfull, old, ?_, rfl⟩, ?_⟩
        · rfl
        by_cases h10 : (KV.set (KV.erase st.experiences old.1) e.id e).length % 10 = 0
        · rw [if_pos h10] at h
          cases h
          exact ⟨rfl, rfl, by rw [if_pos h10]⟩
        · rw [if_neg h10] at h
          cases h
          exact ⟨rfl, rfl, by rw [if_neg h10]⟩
    · simp only [if_neg hfull] at h
      refine ⟨st.experiences, Or.inr ⟨lt_of_not_le hfull, rfl⟩, ?_⟩
      by_cases h10 : (KV.set st.experiences e.id e).length % 10 = 0
      · rw [if_pos h10] at h
        cases h
        exact ⟨rfl, rfl, by rw [if_pos h10]⟩
      · rw [if_neg h10] at h
        cases h
        exact ⟨rfl, rfl, by rw [if_neg h10]⟩

theorem stepSave_inv (st : ExperienceStore) (en : Experience × Nat)
    (h1 : 1 ≤ st.maxSize) (h2 : st.experiences.length ≤ st.maxSize) :
    (stepSave st en).experiences.length ≤ st.maxSize ∧
      (stepSave st en).maxSize = st.maxSize := by
  unfold stepSave
  cases hs : save st en.1 en.2 with
  | error msg => exact ⟨h2, rfl⟩
  | ok st' =>
    rcases save_ok_shape st en.1 en.2 st' hs with
      ⟨_, exps, hcase, hexp, hmax, _⟩
    rcases hcase with ⟨hfull, old, hold, hexps⟩ | ⟨hlt, hexps⟩
    · have hmem := oldest?_mem _ _ hold
      have hlt1 : (KV.erase st.experiences old.1).length < st.experiences.length :=
        KV.length_erase_lt_of_mem _ _ hmem
      have := KV.length_set_le exps en.1.id en.1
      rw [hexp, hmax]
      constructor
      · subst hexps
        omega
      · rfl
    · have := KV.length_set_le exps en.1.id en.1
      rw [hexp, hmax]
      constructor
      · subst hexps
        omega
      · rfl

theorem runSaves_inv (c : Nat) (hc : 1 ≤ c) (l : List (Experience × Nat)) :
    (runSaves c l).experiences.length ≤ c ∧ (runSaves c l).maxSize = c := by
  unfold runSaves
  suffices h : ∀ st : ExperienceStore, st.maxSize = c →
      st.experiences.length ≤ c →
      (l.foldl stepSave st).experiences.length ≤ c ∧
        (l.foldl stepSave st).maxSize = c by
    exact h (emptyStore c) rfl (by simp [emptyStore])
  induction l with
  | nil => exact fun st hm hl => ⟨hl, hm⟩
  | cons en tl ih =>
    intro st hm hl
    have hstep := stepSave_inv st en (hm ▸ hc) (hm ▸ hl)
    exact ih (stepSave st en) (hstep.2.trans hm) (hm ▸ hstep.1)

/-- C3: the Experience Store never exceeds its capacity `C ≥ 1` over any
sequence of `save` calls from a fresh store, and a `save` of a fresh id
into a full store evicts exactly the first stored experience of minimal
timestamp before inserting the new one. -/
theorem C3_capacity_bound_and_eviction (C : Nat) (hC : 1 ≤ C) :
    (∀ l : List (Experience × Nat), (runSaves C l).experiences.length ≤ C) ∧
      (∀ (st : ExperienceStore) (e : Experience) (now : Nat),
        st.maxSize = C → st.experiences.length = C → e.id ≠ "" →
        ∃ old, oldest? st.experiences = some old ∧ old ∈ st.experiences ∧
          (∀ kv ∈ st.experiences, old.2.timestamp ≤ kv.2.timestamp) ∧
          ∃ st', save st e now = Except.ok st' ∧
            st'.experiences = KV.set (KV.erase st.experiences old.1) e.id e) := by
  constructor
  · exact fun l => (runSaves_inv C hC l).1
  · intro st e now hm hl hid
    have hne : st.experiences ≠ [] := by
      intro hnil
      rw [hnil] at hl
      simp at hl
      omega
    rcases oldest?_isSome st.experiences hne with ⟨old, hold⟩
    refine ⟨old, ?_⟩
    refine ⟨hold, oldest?_mem _ _ hold, oldest?_min _ _ hold, ?_⟩
    have hfull : st.maxSize ≤ st.experiences.length := by omega
    rw [save, if_neg hid]
    simp only [if_pos hfull, hold]
    by_cases h10 : (KV.set (KV.erase st.experiences old.1) e.id e).length % 10 = 0
    · exact ⟨_, by rw [if_pos h10], rfl⟩
    · exact ⟨_, by rw [if_neg h10], rfl⟩

/-- Witness for C3: two saves into a store of capacity 1 leave at most one
stored experience. -/
theorem C3_capacity_bound_and_eviction_witness :
    (runSaves 1 [(mkExp 1 "t" [] true 1, 0), (mkExp 2 "t" [] true 1, 0)]).experiences.length ≤ 1 :=
  (C3_capacity_bound_and_eviction 1 (by decide)).1
    [(mkExp 1 "t" [] true 1, 0), (mkExp 2 "t" [] true 1, 0)]

end Store

namespace Store

theorem groupUpdate_uniform (t : String) (acc : List Experience)
    (e : Experience) (he : e.task.type = t) :
    groupUpdate [(t, acc)] e = [(t, acc ++ [e])] := by
  unfold groupUpdate
  rw [he]
  simp [KV.get?, KV.set]

theorem foldl_groupUpdate_uniform (t : String) (exps : List Experience)
    (h : ∀ e ∈ exps, e.task.type = t) :
    ∀ acc : List Experience,
      exps.foldl groupUpdate [(t, acc)] = [(t, acc ++ exps)] := by
  induction exps with
  | nil =>
    intro acc
    simp
  | cons e tl ih =>
    intro acc
    rw [List.foldl_cons,
      groupUpdate_uniform t acc e (h e (List.mem_cons_self _ _)),
      ih (fun x hx => h x (List.mem_cons_of_mem _ hx)) (acc ++ [e])]
    simp

theorem taskGroups_uniform (t : String) (exps : List Experience)
    (hne : exps ≠ []) (h : ∀ e ∈ exps, e.task.type = t) :
    taskGroups exps = [(t, exps)] := by
  cases exps with
  | nil => exact absurd rfl hne
  | cons e tl =>
    have he := h e (List.mem_cons_self _ _)
    unfold taskGroups
    rw [List.foldl_cons]
    have h0 : groupUpdate [] e = [(t, [e])] := by
      rw [groupUpdate, he]
      simp [KV.get?]
    rw [h0, foldl_groupUpdate_uniform t tl
      (fun x hx => h x (List.mem_cons_of_mem _ hx)) [e]]
    simp

theorem map_snd_pair_id (l : List Experience) :
    (l.map (fun e => (e.id, e))).map (·.2) = l := by
  induction l with
  | nil => rfl
  | cons e tl ih => simp [ih]

theorem extractPattern_confidence (t : String) (exps : List Experience)
    (now : Nat) (hpos : 0 < exps.length) :
    (extractPattern t exps now).confidence
      = ((exps.filter (·.outcome.success)).length : ℚ) / (exps.length : ℚ) := by
  have h0 : (extractPattern t exps now).confidence
      = min (((exps.filter (·.outcome.success)).length : ℚ)
          / (exps.length : ℚ)) 1 := rfl
  rw [h0]
  apply min_eq_left
  rw [div_le_one (by exact_mod_cast hpos)]
  exact_mod_cast List.length_filter_le _ _

theorem recognizePatterns_single_group (t : String) (exps : List Experience)
    (assoc : List (String × Experience)) (ps0 : List (String × Pattern))
    (mx now : Nat) (hmap : assoc.map (·.2) = exps) (h3 : 3 ≤ exps.length)
    (ht : ∀ e ∈ exps, e.task.type = t) :
    (recognizePatterns
        { experiences := assoc, patterns := ps0, maxSize := mx } now).patterns
      = if (0.7 : ℚ)
            < ((exps.filter (·.outcome.success)).length : ℚ) / (exps.length : ℚ)
        then KV.set ps0 ("pattern-" ++ t ++ "-" ++ toString now)
          (extractPattern t exps now)
        else ps0 := by
  have hne : exps ≠ [] := by
    intro hnil
    rw [hnil] at h3
    simp at h3
  unfold recognizePatterns
  simp only [hmap]
  rw [taskGroups_uniform t exps hne ht]
  rw [List.foldl_cons, List.foldl_nil]
  change (if exps.length < 3 then ps0 else
    if (0.7 : ℚ) < (extractPattern t exps now).confidence
    then KV.set ps0 (extractPattern t exps now).id (extractPattern t exps now)
    else ps0) = _
  rw [if_neg (by omega)]
  have hid : (extractPattern t exps now).id
      = "pattern-" ++ t ++ "-" ++ toString now := rfl
  rw [extractPattern_confidence t exps now (by omega), hid]

/-- C5 fails on the code: on a ten-experience group whose agent combination
has success rate `0.7 ≥ 0.6`, the recognition pass stores no pattern at
all, because the code gates on group confidence strictly above `0.7` and
never computes a per-combination success rate. -/
theorem C5_recognition_counterexample :
    (recognizePatterns ceStore 0).patterns = [] ∧
      ((ceExps.filter (·.outcome.success)).length : ℚ) / (ceExps.length : ℚ)
        = 7 / 10 ∧
      (0.6 : ℚ) ≤ 7 / 10 := by
  have hflt : (ceExps.filter (·.outcome.success)).length = 7 := by decide
  have hlen : ceExps.length = 10 := by decide
  refine ⟨?_, by rw [hflt, hlen]; norm_num, by norm_num⟩
  have h := recognizePatterns_single_group "code-review" ceExps
    (ceExps.map (fun e => (e.id, e))) [] 10000 0
    (map_snd_pair_id ceExps) (by rw [hlen]; omega) (by decide)
  have hst : ceStore
      = { experiences := ceExps.map (fun e => (e.id, e)), patterns := [],
          maxSize := 10000 } := rfl
  rw [hst, h, hflt, hlen, if_neg (by norm_num)]

/-- C5 amended: a recognition pass runs exactly when the post-insertion
store size is a multiple of 10 (every 10th insertion while ids are fresh
and the store is below capacity); it groups stored experiences by
task_type, skips groups with fewer than 3 samples, counts each sorted
agent-type combination's frequency among the group's successful
experiences, and stores a new Pattern for the group — whose recommendation
names the highest-frequency combination and whose confidence is
`successful_count / total_count` — iff that confidence exceeds `0.7`. -/
theorem C5_recognition_amended :
    (∀ (st : ExperienceStore) (e : Experience) (now : Nat)
        (st' : ExperienceStore), save st e now = Except.ok st' →
      (st'.experiences.length % 10 ≠ 0 → st'.patterns = st.patterns) ∧
        (st'.experiences.length % 10 = 0 →
          st'.patterns = (recognizePatterns
            { experiences := st'.experiences, patterns := st.patterns,
              maxSize := st.maxSize } now).patterns)) ∧
      (∀ (t : String) (exps : List Experience)
          (assoc : List (String × Experience)) (ps0 : List (String × Pattern))
          (mx now : Nat), assoc.map (·.2) = exps → 3 ≤ exps.length →
          (∀ e ∈ exps, e.task.type = t) →
        (extractPattern t exps now).confidence
            = ((exps.filter (·.outcome.success)).length : ℚ)
              / (exps.length : ℚ) ∧
          (recognizePatterns
              { experiences := assoc, patterns := ps0, maxSize := mx }
              now).patterns
            = if (0.7 : ℚ) < ((exps.filter (·.outcome.success)).length : ℚ)
                  / (exps.length : ℚ)
              then KV.set ps0 ("pattern-" ++ t ++ "-" ++ toString now)
                (extractPattern t exps now)
              else ps0) := by
  constructor
  · intro st e now st' h
    rcases save_ok_shape st e now st' h with ⟨_, exps, _, hexp, hmax, hpat⟩
    constructor
    · intro h10
      rw [hexp] at h10
      rw [hpat, if_neg h10]
    · intro h10
      rw [hexp] at h10
      rw [hpat, if_pos h10]
      have hst : ({ st with experiences := KV.set exps e.id e } : ExperienceStore)
          = { experiences := st'.experiences, patterns := st.patterns,
              maxSize := st.maxSize } := by
        rw [← hexp]
      rw [hst]
  · intro t exps assoc ps0 mx now hmap h3 ht
    exact ⟨extractPattern_confidence t exps now (by omega),
      recognizePatterns_single_group t exps assoc ps0 mx now hmap h3 ht⟩

/-- Witness for C5's amended theorem: three successful same-task
experiences (confidence `1 > 0.7`) make the pass store the group pattern. -/
theorem C5_recognition_amended_witness :
    (recognizePatterns wStore 5).patterns
      = KV.set [] ("pattern-" ++ "code-review" ++ "-" ++ toString 5)
          (extractPattern "code-review" wExps 5) := by
  have h := (C5_recognition_amended.2 "code-review" wExps
    (wExps.map (fun e => (e.id, e))) [] 10000 5
    (map_snd_pair_id wExps) (by decide) (by decide)).2
  have hflt : (wExps.filter (·.outcome.success)).length = 3 := by decide
  have hlen : wExps.length = 3 := by decide
  have hst : wStore
      = { experiences := wExps.map (fun e => (e.id, e)), patterns := [],
          maxSize := 10000 } := rfl
  rw [hst, h, hflt, hlen, if_pos (by norm_num)]

end Store

namespace Evo

theorem insertDescBy_mem {α : Type} (key : α → ℚ) (a x : α) (l : List α) :
    x ∈ insertDescBy key a l ↔ x = a ∨ x ∈ l := by
  induction l with
  | nil => simp [insertDescBy]
  | cons b tl ih =>
    by_cases hc : key b < key a
    · simp [insertDescBy, if_pos hc]
    · simp only [insertDescBy, if_neg hc, List.mem_cons, ih]
      tauto

theorem sortDescBy_mem {α : Type} (key : α → ℚ) (x : α) (l : List α) :
    x ∈ sortDescBy key l ↔ x ∈ l := by
  induction l with
  | nil => simp [sortDescBy]
  | cons b tl ih =>
    simp only [sortDescBy, List.foldr_cons] at ih ⊢
    rw [insertDescBy_mem]
    simp [ih]

/-- C6 fails on the code: `selectBestPatterns` first filters to patterns with
`successRate > 0.6`, so on a population of one pattern at success rate
`0.5` the selection retains nothing — strictly fewer than 80% of the
pre-cycle population of size 1. -/
theorem C6_selection_counterexample :
    (selectBestPatterns ceCIState).length = 0 ∧
      ceCIState.learnedPatterns.length = 1 ∧
      Nat.ceil ((ceCIState.learnedPatterns.length : ℚ) * 0.8) = 1 := by
  refine ⟨?_, rfl, ?_⟩
  · have hfalse : ¬((0.6 : ℚ) < cePattern.successRate) := by
      norm_num [cePattern]
    simp [selectBestPatterns, ceCIState, sortDescBy, List.filter, hfalse]
  · have h1 : ceCIState.learnedPatterns.length = 1 := rfl
    rw [h1]
    have he : ((1 : Nat) : ℚ) * 0.8 = 4 / 5 := by norm_num
    rw [he]
    have hle : Nat.ceil ((4 : ℚ) / 5) ≤ 1 := Nat.ceil_le.mpr (by norm_num)
    have hpos : 0 < Nat.ceil ((4 : ℚ) / 5) := Nat.ceil_pos.mpr (by norm_num)
    omega

/-- C6 amended: the selection step returns at most `⌈0.8·N⌉` patterns
(`N` the pre-cycle pattern-population size), each drawn from the pre-cycle
population with `successRate > 0.6` — possibly far fewer than 80% of `N`
(even none) when patterns do not clear the `0.6` bar — and every triggered
evolution cycle increments the generation counter by exactly 1. -/
theorem C6_evolution_amended (now : Nat) (randMut : Nat → Bool)
    (randF : String → ℚ) (s : CIState) :
    (triggerEvolution now randMut randF s).1.evolutionGeneration
        = s.evolutionGeneration + 1 ∧
      (triggerEvolution now randMut randF s).2.newGeneration
        = s.evolutionGeneration + 1 ∧
      (triggerEvolution now randMut randF s).2.previousGeneration
        = s.evolutionGeneration ∧
      (selectBestPatterns s).length
        ≤ Nat.ceil ((s.learnedPatterns.length : ℚ) * 0.8) ∧
      ∀ p ∈ selectBestPatterns s,
        (0.6 : ℚ) < p.successRate ∧ p ∈ s.learnedPatterns.map (·.2) := by
  refine ⟨rfl, rfl, rfl, ?_, ?_⟩
  · unfold selectBestPatterns
    exact List.length_take_le _ _
  · intro p hp
    unfold selectBestPatterns at hp
    have hp1 := List.take_subset _ _ hp
    rw [sortDescBy_mem] at hp1
    rw [List.mem_filter] at hp1
    refine ⟨by simpa using hp1.2, hp1.1⟩

end Evo

namespace Mesh

theorem establish_channel_trust (m : MeshState) (a b x y : String) :
    get_trust_score (establish_channel m a b).1 x y = get_trust_score m x y := by
  unfold establish_channel
  cases h1 : KV.get? m.channels (channelId a b) with
  | some c => simp [h1]
  | none =>
    cases h2 : KV.get? m.trust_scores (sortPair a b) with
    | some t =>
      simp only [h1, h2]
      rfl
    | none =>
      simp only [h1, h2]
      unfold get_trust_score
      by_cases hk : sortPair x y = sortPair a b
      · rw [hk]
        simp only []
        rw [KV.get?_set_self, h2]
        rfl
      · simp only []
        rw [KV.get?_set_ne _ _ _ _ hk]

theorem send_message_trust (m : MeshState) (a b : String) (t : MsgType)
    (c : Content) (r : Option String) (x y : String) :
    get_trust_score (send_message m a b t c r).1 x y
      = get_trust_score m x y := by
  have h0 : get_trust_score (send_message m a b t c r).1 x y
      = get_trust_score (establish_channel m a b).1 x y := rfl
  rw [h0, establish_channel_trust]

theorem meshInit_trust (a b : String) :
    get_trust_score meshInit a b = 0.5 := by
  unfold get_trust_score meshInit
  cases h : sortPair a b with
  | mk u v => rfl

theorem meshZeroTrust_trust :
    get_trust_score meshZeroTrust "agent-a" "agent-b" = 0 := by
  have hle : ("agent-a" : String) ≤ "agent-b" := by
    rw [String.le_iff_toList_le]
    decide
  unfold get_trust_score meshZeroTrust sortPair
  rw [if_pos hle]
  rfl

theorem update_trust_history (m : MeshState) (a b : String) (suc : Bool)
    (q : ℚ) : (update_trust m a b suc q).1.message_history
      = m.message_history := rfl

theorem update_trust_failure_counters (m : MeshState) (a b : String) (q : ℚ) :
    (update_trust m a b false q).1.failed_exchanges = m.failed_exchanges + 1 ∧
      (update_trust m a b false q).1.successful_exchanges
        = m.successful_exchanges :=
  ⟨rfl, rfl⟩

theorem update_trust_get_self (m : MeshState) (a b : String) (suc : Bool)
    (q : ℚ) : get_trust_score (update_trust m a b suc q).1 a b
      = updateScore (get_trust_score m a b) suc q := by
  unfold update_trust get_trust_score
  simp [KV.get?_set_self]

theorem negotiateLoop_spec (fuel : Nat) :
    ∀ (m : MeshState) (i r nid : String) (mr rounds : Nat) (ag : Bool)
      (p : Proposal) (hist : List A2AMessage),
    ∃ l : List A2AMessage,
      (negotiateLoop m i r nid mr rounds ag p hist fuel).2.2.2.2 = hist ++ l ∧
      (negotiateLoop m i r nid mr rounds ag p hist fuel).1.message_history
        = m.message_history ++ l ∧
      l.length ≤ fuel ∧
      (negotiateLoop m i r nid mr rounds ag p hist fuel).2.1 ≤ rounds + fuel ∧
      (∀ msg ∈ l, msg.message_type = "negotiation") ∧
      (negotiateLoop m i r nid mr rounds ag p hist fuel).1.successful_exchanges
        = m.successful_exchanges ∧
      (negotiateLoop m i r nid mr rounds ag p hist fuel).1.failed_exchanges
        = m.failed_exchanges := by
  induction fuel with
  | zero =>
    intro m i r nid mr rounds ag p hist
    exact ⟨[], by simp [negotiateLoop], by simp [negotiateLoop],
      by simp, by simp [negotiateLoop], by simp,
      by simp [negotiateLoop], by simp [negotiateLoop]⟩
  | succ fuel ih =>
    intro m i r nid mr rounds ag p hist
    by_cases hcond : rounds < mr ∧ ag = false
    · rw [show negotiateLoop m i r nid mr rounds ag p hist (fuel + 1)
          = negotiateLoop
              (send_message m (if rounds % 2 = 0 then i else r)
                (if rounds % 2 = 0 then r else i) MsgType.negotiation
                (Content.nego nid rounds p) none).1 i r nid mr (rounds + 1)
              (if 0 < rounds then
                (if (0.7 : ℚ) < 0.3 + get_trust_score
                      (send_message m (if rounds % 2 = 0 then i else r)
                        (if rounds % 2 = 0 then r else i) MsgType.negotiation
                        (Content.nego nid rounds p) none).1 i r * 0.4
                    + (rounds : ℚ) * 0.1
                 then (true, p) else (ag, counterProposal p))
               else (ag, p)).1
              (if 0 < rounds then
                (if (0.7 : ℚ) < 0.3 + get_trust_score
                      (send_message m (if rounds % 2 = 0 then i else r)
                        (if rounds % 2 = 0 then r else i) MsgType.negotiation
                        (Content.nego nid rounds p) none).1 i r * 0.4
                    + (rounds : ℚ) * 0.1
                 then (true, p) else (ag, counterProposal p))
               else (ag, p)).2
              (hist ++ [(send_message m (if rounds % 2 = 0 then i else r)
                (if rounds % 2 = 0 then r else i) MsgType.negotiation
                (Content.nego nid rounds p) none).2]) fuel
        from by rw [negotiateLoop, if_pos hcond]]
      set sm := send_message m (if rounds % 2 = 0 then i else r)
        (if rounds % 2 = 0 then r else i) MsgType.negotiation
        (Content.nego nid rounds p) none with hsm
      rcases ih sm.1 i r nid mr (rounds + 1) _ _ (hist ++ [sm.2]) with
        ⟨l', h1, h2, h3, h4, h5, h6, h7⟩
      refine ⟨sm.2 :: l', ?_, ?_, ?_, ?_, ?_, ?_, ?_⟩
      · rw [h1]
        simp
      · rw [h2, hsm, send_message_history]
        simp
      · simpa using h3
      · omega
      · intro msg hmsg
        rcases List.mem_cons.mp hmsg with rfl | hm
        · rfl
        · exact h5 msg hm
      · rw [h6, hsm, (send_message_counters m _ _ _ _ _).1]
      · rw [h7, hsm, (send_message_counters m _ _ _ _ _).2]
    · rw [negotiateLoop, if_neg hcond]
      refine ⟨[], by simp, by simp, by simp, ?_, by simp, rfl, rfl⟩
      show rounds ≤ rounds + (fuel + 1)
      omega

/-- C4: a negotiation with `max_rounds = 5` sends at most 5 proposal
(negotiation-type) messages, the bounded loop always returns (embedded as a
total function on a fuel bound equal to `max_rounds`), and when no round
reaches acceptance the run ends in the spec's EXPIRED terminal state and is
counted as a failed interaction by the final trust update. -/
theorem C4_negotiation_bounded (m : MeshState) (A B : String) (p : Proposal) :
    (negotiate m A B p 5).2.rounds ≤ 5 ∧
      (negotiate m A B p 5).2.history.length ≤ 5 ∧
      (∀ msg ∈ (negotiate m A B p 5).2.history,
        msg.message_type = "negotiation") ∧
      (negotiate m A B p 5).1.message_history
        = m.message_history ++ (negotiate m A B p 5).2.history ∧
      ((negotiate m A B p 5).2.success = false →
        ((negotiate m A B p 5).2.terminalState = NegotiationState.EXPIRED ∧
          (negotiate m A B p 5).1.failed_exchanges = m.failed_exchanges + 1 ∧
          (negotiate m A B p 5).1.successful_exchanges
            = m.successful_exchanges)) := by
  rcases negotiateLoop_spec 5 m A B ("nego-" ++ toString m.clock) 5 0 false p []
    with ⟨l, h1, h2, h3, h4, h5, h6, h7⟩
  set rr := negotiateLoop m A B ("nego-" ++ toString m.clock) 5 0 false p [] 5
    with hrr
  have hhist : (negotiate m A B p 5).2.history = l := by
    show rr.2.2.2.2 = l
    rw [h1]
    simp
  refine ⟨?_, ?_, ?_, ?_, ?_⟩
  · show rr.2.1 ≤ 5
    simpa using h4
  · rw [hhist]
    exact h3
  · rw [hhist]
    exact h5
  · have hh : (negotiate m A B p 5).1.message_history
        = rr.1.message_history := rfl
    rw [hh, h2, hhist]
  · intro hfail
    have hsucc : rr.2.2.1 = false := hfail
    refine ⟨?_, ?_, ?_⟩
    · unfold NegoResult.terminalState
      rw [show (negotiate m A B p 5).2.success = rr.2.2.1 from rfl, hsucc]
      simp
    · have hc : (negotiate m A B p 5).1.failed_exchanges
          = (update_trust rr.1 A B rr.2.2.1 0.8).1.failed_exchanges := rfl
      rw [hc, hsucc, (update_trust_failure_counters rr.1 A B 0.8).1, h7]
    · have hc : (negotiate m A B p 5).1.successful_exchanges
          = (update_trust rr.1 A B rr.2.2.1 0.8).1.successful_exchanges := rfl
      rw [hc, hsucc, (update_trust_failure_counters rr.1 A B 0.8).2, h6]

end Mesh

theorem fresh_run_eval :
    (Mesh.negotiate Mesh.meshInit "agent-a" "agent-b" Mesh.proposalTen 5).2.rounds = 4 ∧
      (Mesh.negotiate Mesh.meshInit "agent-a" "agent-b" Mesh.proposalTen 5).2.success = true ∧
      (Mesh.negotiate Mesh.meshInit "agent-a" "agent-b" Mesh.proposalTen 5).2.history.length = 4 ∧
      (Mesh.negotiate Mesh.meshInit "agent-a" "agent-b" Mesh.proposalTen 5).2.final_proposal.value = some (81 / 10 : ℚ) ∧
      Mesh.get_trust_score (Mesh.negotiate Mesh.meshInit "agent-a" "agent-b" Mesh.proposalTen 5).1 "agent-a" "agent-b" = 27 / 50 := by
  refine ⟨?_, ?_, ?_, ?_, ?_⟩ <;>
    norm_num [Mesh.negotiate, Mesh.negotiateLoop, Mesh.send_message_trust,
      Mesh.meshInit_trust, Mesh.counterProposal, Mesh.proposalTen,
      Mesh.update_trust_get_self, Mesh.updateScore, min_def, max_def]

theorem zero_trust_run_eval :
    (Mesh.negotiate Mesh.meshZeroTrust "agent-a" "agent-b" Mesh.proposalTen 5).2.success = false ∧
      (Mesh.negotiate Mesh.meshZeroTrust "agent-a" "agent-b" Mesh.proposalTen 5).2.rounds = 5 ∧
      (Mesh.negotiate Mesh.meshZeroTrust "agent-a" "agent-b" Mesh.proposalTen 5).2.history.length = 5 := by
  refine ⟨?_, ?_, ?_⟩ <;>
    norm_num [Mesh.negotiate, Mesh.negotiateLoop, Mesh.send_message_trust,
      Mesh.meshZeroTrust_trust, Mesh.counterProposal, Mesh.proposalTen]

/-- Witness for C4 on a mesh whose stored trust for the negotiating pair is
`0`: the run uses all five rounds without acceptance, terminates EXPIRED
and is counted as a failed interaction. -/
theorem C4_negotiation_bounded_witness :
    (Mesh.negotiate Mesh.meshZeroTrust "agent-a" "agent-b"
        Mesh.proposalTen 5).2.terminalState = Mesh.NegotiationState.EXPIRED ∧
      (Mesh.negotiate Mesh.meshZeroTrust "agent-a" "agent-b"
          Mesh.proposalTen 5).1.failed_exchanges
        = Mesh.meshZeroTrust.failed_exchanges + 1 :=
  have h := (Mesh.C4_negotiation_bounded Mesh.meshZeroTrust "agent-a" "agent-b"
    Mesh.proposalTen).2.2.2.2 zero_trust_run_eval.1
  ⟨h.1, h.2.1⟩

/-- C9 fails on the code: `negotiate` skips the acceptance check at round 0
(it is evaluated only for rounds ≥ 1) and uses no random decision draw (the
deterministic comparison is against `0.7`, not `0.5`), so a fresh-trust
negotiation over `{value: 10}` is accepted only at round index 3, after 4
proposal messages — never at round 0. -/
theorem C9_round0_counterexample :
    (Mesh.negotiate Mesh.meshInit "agent-a" "agent-b"
        Mesh.proposalTen 5).2.rounds = 4 ∧
      (Mesh.negotiate Mesh.meshInit "agent-a" "agent-b"
          Mesh.proposalTen 5).2.history.length = 4 ∧
      (4 : Nat) ≠ 1 :=
  ⟨fresh_run_eval.1, fresh_run_eval.2.2.1, by decide⟩

/-- C9 amended: for two fresh agents (trust `0.5`) negotiating
`{value: 10}`, the code evaluates acceptance only from round 1 on, with the
deterministic rule `0.3 + 0.4·trust + 0.1·round > 0.7`; the negotiation is
ACCEPTED at round index 3 (probability `0.8`), after 4 proposal messages
and two 0.9-scalings of the proposal value (final value `8.1`), and
trust(A,B) strictly increases afterward, from `0.5` to `0.54`. -/
theorem C9_fresh_negotiation_amended :
    (Mesh.negotiate Mesh.meshInit "agent-a" "agent-b"
        Mesh.proposalTen 5).2.success = true ∧
      (Mesh.negotiate Mesh.meshInit "agent-a" "agent-b"
          Mesh.proposalTen 5).2.rounds = 4 ∧
      (Mesh.negotiate Mesh.meshInit "agent-a" "agent-b"
          Mesh.proposalTen 5).2.terminalState
        = Mesh.NegotiationState.ACCEPTED ∧
      (Mesh.negotiate Mesh.meshInit "agent-a" "agent-b"
          Mesh.proposalTen 5).2.final_proposal.value = some (81 / 10 : ℚ) ∧
      Mesh.get_trust_score
          (Mesh.negotiate Mesh.meshInit "agent-a" "agent-b"
            Mesh.proposalTen 5).1 "agent-a" "agent-b" = 27 / 50 ∧
      (1 : ℚ) / 2 < 27 / 50 := by
  refine ⟨fresh_run_eval.2.1, fresh_run_eval.1, ?_, fresh_run_eval.2.2.2.1,
    fresh_run_eval.2.2.2.2, by norm_num⟩
  unfold Mesh.NegoResult.terminalState
  rw [fresh_run_eval.2.1]
  simp
